import Mathlib

/-!
Shallow embedding of the spreadsheet-to-table reconstruction pipeline of the
`data-clarity` repository (files `python-engine/app/block_detector.py`,
`python-engine/app/cleaner.py`, `python-engine/app/metrics_engine.py`),
together with theorems settling the frozen claims about it.

Modelling conventions:
* A Python cell value is a `Cell`: `none` (Python `None`), `nan` (a float NaN),
  a string, an `int`, or a finite `float`.  Finite floats are modelled as exact
  rationals; every float literal appearing in the pipeline's arithmetic
  (`0.40`, `1.8`, ...) is an exactly representable decimal, and the heuristic
  scores are far from the comparison thresholds on all inputs used below, so
  exact rational arithmetic is a faithful rendering of the float arithmetic.
* Rationals are represented by `Frac`, an unnormalized numerator/denominator
  pair with denominators kept positive by construction; comparisons are done
  by cross multiplication.  (Mathlib's `Rat` operations do not reduce inside
  the kernel, which the concrete-grid evaluations below require.)
* Python regular expressions are compiled by hand into character-list matchers,
  following each pattern literally.
* The Python float grammar is modelled for the shapes the pipeline can feed it:
  optional sign, digits with an optional decimal point, an optional exponent,
  and `nan`; the exotic `inf`/digit-underscore forms are not modelled.
* All recursion is structural or fuel-based so that terms evaluate by `decide`;
  the fuel values used by the wrappers are proved or chosen large enough
  (see the termination theorem for claim C10).
-/

namespace DataClarity

/-- Exact rational numbers as unnormalized fractions; `den` is kept positive by
construction at every use site. -/
structure Frac where
  num : Int
  den : Int
deriving DecidableEq, Repr

/-- Literal rational `n / d` (used with `d > 0`). -/
def fr (n d : Int) : Frac := ⟨n, d⟩

def Frac.add (a b : Frac) : Frac := ⟨a.num * b.den + b.num * a.den, a.den * b.den⟩

def Frac.sub (a b : Frac) : Frac := ⟨a.num * b.den - b.num * a.den, a.den * b.den⟩

def Frac.mul (a b : Frac) : Frac := ⟨a.num * b.num, a.den * b.den⟩

/-- `a < b` for fractions with positive denominators. -/
def Frac.lt (a b : Frac) : Bool := a.num * b.den < b.num * a.den

/-- `a ≤ b` for fractions with positive denominators. -/
def Frac.le (a b : Frac) : Bool := a.num * b.den ≤ b.num * a.den

/-- `m / n` for counts (`n > 0` at every use site). -/
def ratio (m n : Nat) : Frac := ⟨m, n⟩

/-- A raw spreadsheet cell value as the Python code sees it: `None`, a float
`NaN`, a string, an `int`, or a finite `float` (exact rational, see above). -/
inductive Cell where
  | none
  | nan
  | str (s : String)
  | int (i : Int)
  | float (f : Frac)
deriving DecidableEq, Repr

/-- Python `str.strip()` whitespace class (ASCII part, which is all the
pipeline's inputs use). -/
def isPySpace (c : Char) : Bool :=
  c = ' ' ∨ c = '\t' ∨ c = '\n' ∨ c = '\r' ∨ c = '\x0b' ∨ c = '\x0c'

/-- Drop the longest run of characters satisfying `p` from the end. -/
def dropTrail (p : Char → Bool) (l : List Char) : List Char :=
  (l.reverse.dropWhile p).reverse

/-- Python `str.strip()` on a character list. -/
def stripList (l : List Char) : List Char :=
  dropTrail isPySpace (l.dropWhile isPySpace)

/-- Python `str.strip()`. -/
def pyStrip (s : String) : String := ⟨stripList s.data⟩

/-- Python `str.lower()` restricted to the Latin-1 range the pipeline uses:
`A`–`Z` and the accented uppercase letters `À`–`Þ` (minus `×`) map down by 32. -/
def pyCharLower (c : Char) : Char :=
  if 'A' ≤ c ∧ c ≤ 'Z' then Char.ofNat (c.toNat + 32)
  else if 0xC0 ≤ c.toNat ∧ c.toNat ≤ 0xDE ∧ c.toNat ≠ 0xD7 then Char.ofNat (c.toNat + 32)
  else c

/-- Python `str.lower()`. -/
def pyLower (s : String) : String := ⟨s.data.map pyCharLower⟩

/-- `normalize_cell` from `block_detector.py` (lines 18–37): `None`/NaN/blank/
`"nan"` (case-insensitive)/`"-"` become empty (`Cell.none`), `"#DIV/0!"`
becomes the string `"0"`, strings are stripped, numbers pass through. -/
def normalize_cell : Cell → Cell
  | .none => .none
  | .nan => .none
  | .str s =>
      let t := pyStrip s
      if t = "" then .none
      else if pyLower t = "nan" then .none
      else if t = "#DIV/0!" then .str "0"
      else if t = "-" then .none
      else .str t
  | .int i => .int i
  | .float f => .float f

example : normalize_cell (Cell.str "  x  ") = Cell.str "x" := by decide
example : normalize_cell (Cell.str " NaN ") = Cell.none := by decide
example : normalize_cell (Cell.str "#DIV/0!") = Cell.str "0" := by decide
example : normalize_cell (Cell.str " - ") = Cell.none := by decide

def isAsciiDigit (c : Char) : Bool := '0' ≤ c ∧ c ≤ '9'

def digitsToNat (l : List Char) : Nat :=
  l.foldl (fun a c => a * 10 + (c.toNat - 48)) 0

/-- Result of Python `float(s)`: a finite value, a NaN, or a `ValueError`. -/
inductive PyFloat where
  | finite (f : Frac)
  | nan
  | err
deriving DecidableEq, Repr

/-- Optional sign followed by one or more digits (the exponent part of the
Python float grammar). -/
def parseSignedDigits (l : List Char) : Option Int :=
  let p := match l with
    | '+' :: t => ((1 : Int), t)
    | '-' :: t => ((-1 : Int), t)
    | _ => ((1 : Int), l)
  if p.2 ≠ [] ∧ p.2.all isAsciiDigit then some (p.1 * digitsToNat p.2) else none

/-- The tail after the mantissa: empty, or `e`/`E` plus a signed integer. -/
def parseExpTail (l : List Char) : Option Int :=
  match l with
  | [] => some 0
  | 'e' :: t => parseSignedDigits t
  | 'E' :: t => parseSignedDigits t
  | _ => none

/-- Scale a fraction by `10 ^ e`. -/
def scalePow10 (f : Frac) (e : Int) : Frac :=
  match e with
  | .ofNat n => ⟨f.num * (10 ^ n : Nat), f.den⟩
  | .negSucc n => ⟨f.num, f.den * (10 ^ (n + 1) : Nat)⟩

/-- Python `float(s)` on the grammar the pipeline can produce: optional sign,
digits with an optional decimal point (at least one digit overall), optional
exponent, or `nan` (any capitalisation).  `inf` and digit-group underscores
are not modelled (nothing in the pipeline's data uses them). -/
def parsePyFloat (l : List Char) : PyFloat :=
  let p := match l with
    | '+' :: t => ((1 : Int), t)
    | '-' :: t => ((-1 : Int), t)
    | _ => ((1 : Int), l)
  if p.2.map pyCharLower = "nan".data then .nan
  else
    let ip := p.2.takeWhile isAsciiDigit
    let r1 := p.2.dropWhile isAsciiDigit
    match r1 with
    | '.' :: t =>
        let fp := t.takeWhile isAsciiDigit
        let r2 := t.dropWhile isAsciiDigit
        if ip = [] ∧ fp = [] then .err
        else
          match parseExpTail r2 with
          | some e =>
              .finite (scalePow10
                ⟨p.1 * (digitsToNat ip * (10 ^ fp.length : Nat) + digitsToNat fp),
                  ((10 : Nat) ^ fp.length : Nat)⟩ e)
          | none => .err
    | _ =>
        if ip = [] then .err
        else
          match parseExpTail r1 with
          | some e => .finite (scalePow10 ⟨p.1 * digitsToNat ip, 1⟩ e)
          | none => .err

example : parsePyFloat "1234.56".data = .finite (fr 123456 100) := by decide
example : parsePyFloat "-45.00".data = .finite (fr (-4500) 100) := by decide
example : parsePyFloat "abc".data = .err := by decide
example : parsePyFloat "1.2.3".data = .err := by decide
example : parsePyFloat "NaN".data = .nan := by decide

/-- Decimal digits of `num / den` (with `num < den`), used by `floatRepr`. -/
def fracDigits : Nat → Nat → Nat → List Char
  | 0, _, _ => []
  | _, 0, _ => []
  | fuel + 1, num, den =>
      Char.ofNat (48 + num * 10 / den) :: fracDigits fuel (num * 10 % den) den

/-- Python `str()` of a float whose value is a terminating decimal (which is
the only kind produced by the pipeline's grids): sign, integer part, `.`,
fraction digits (at least one). -/
def floatRepr (f : Frac) : String :=
  let sgn := if f.num < 0 then "-" else ""
  let a := f.num.natAbs
  let d := f.den.natAbs
  let ds := fracDigits 30 (a % d) d
  sgn ++ toString (a / d) ++ "." ++ (if ds = [] then "0" else ⟨ds⟩)

example : floatRepr (fr 7 2) = "3.5" := by decide
example : floatRepr (fr 4500 100) = "45.0" := by decide

/-- Python `str()` of a cell value. -/
def cellStr : Cell → String
  | .none => "None"
  | .nan => "nan"
  | .str s => s
  | .int i => toString i
  | .float f => floatRepr f

/-- Python `str.replace(pat, "")` (non-overlapping, left to right), fuelled by
the input length. -/
def removeSubF (pat : List Char) : Nat → List Char → List Char
  | 0, l => l
  | _ + 1, [] => []
  | fuel + 1, c :: t =>
      if pat ≠ [] ∧ (c :: t).take pat.length = pat then
        removeSubF pat fuel ((c :: t).drop pat.length)
      else c :: removeSubF pat fuel t

/-- Python `str.replace(pat, "")`. -/
def removeSub (pat l : List Char) : List Char := removeSubF pat l.length l

example : removeSub "R$".data "R$ 45,00 R$".data = " 45,00 ".data := by decide

/-- `is_numeric_like` (`block_detector.py` 39–60): after stripping `R$`, `$`,
spaces, thousands dots, turning `,` into `.` and dropping trailing `%`, the
remainder parses as a Python float. -/
def is_numeric_like (value : Cell) : Bool :=
  match normalize_cell value with
  | .none => false
  | .nan => false
  | .int _ => true
  | .float _ => true
  | .str v =>
      let s := stripList v.data
      if s = [] then false
      else
        let s2 := stripList (removeSub ['$'] (removeSub ['R', '$'] s))
        let s2 := (s2.filter (fun c => c ≠ ' ')).filter (fun c => c ≠ '.')
        let s2 := s2.map (fun c => if c = ',' then '.' else c)
        let s2 := dropTrail (fun c => c = '%') s2
        parsePyFloat s2 ≠ .err

example : is_numeric_like (Cell.str "R$ 1.234,56") = true := by decide
example : is_numeric_like (Cell.str "12%") = true := by decide
example : is_numeric_like (Cell.str "Nome") = false := by decide
example : is_numeric_like (Cell.float (fr 7 2)) = true := by decide

/-- `_numeric_has_decimal` (`block_detector.py` 62–73): a float differing from
its truncation by more than `1e-9`, or a numeric-like string containing a
separator.  (`int(v)` truncates toward zero, hence `Int.tdiv`.) -/
def _numeric_has_decimal (value : Cell) : Bool :=
  match normalize_cell value with
  | .none => false
  | .nan => false
  | .float f =>
      let tr := f.num.tdiv f.den
      Frac.lt (fr 1 1000000000) ⟨(f.num - tr * f.den).natAbs, f.den⟩
  | .int _ => false
  | .str v =>
      if is_numeric_like (.str v) then v.data.contains '.' ∨ v.data.contains ','
      else false

example : _numeric_has_decimal (Cell.float (fr 7 2)) = true := by decide
example : _numeric_has_decimal (Cell.float (fr 4500 100)) = false := by decide
example : _numeric_has_decimal (Cell.int 450) = false := by decide

/-- The regex class `[A-Za-zÀ-ÿ]` from `is_text_like`. -/
def isLatinLetter (c : Char) : Bool :=
  ('A' ≤ c ∧ c ≤ 'Z') ∨ ('a' ≤ c ∧ c ≤ 'z') ∨ (0xC0 ≤ c.toNat ∧ c.toNat ≤ 0xFF)

/-- `is_text_like` (`block_detector.py` 75–83): the normalized string contains
a Latin letter. -/
def is_text_like (value : Cell) : Bool :=
  match normalize_cell value with
  | .str v => v.data.any isLatinLetter
  | _ => false

/-- Regex `^\d{2}/\d{2}/\d{2,4}$` (and its `-` variant via the `sep` char). -/
def dateDMY (sep : Char) (l : List Char) : Bool :=
  match l with
  | d1 :: d2 :: c1 :: d3 :: d4 :: c2 :: rest =>
      isAsciiDigit d1 ∧ isAsciiDigit d2 ∧ c1 = sep ∧ isAsciiDigit d3 ∧
        isAsciiDigit d4 ∧ c2 = sep ∧ rest.all isAsciiDigit ∧
        2 ≤ rest.length ∧ rest.length ≤ 4
  | _ => false

/-- Regex `^\d{4}-\d{2}-\d{2}` (prefix match). -/
def dateISO (l : List Char) : Bool :=
  match l with
  | d1 :: d2 :: d3 :: d4 :: c1 :: d5 :: d6 :: c2 :: d7 :: d8 :: _ =>
      isAsciiDigit d1 ∧ isAsciiDigit d2 ∧ isAsciiDigit d3 ∧ isAsciiDigit d4 ∧
        c1 = '-' ∧ isAsciiDigit d5 ∧ isAsciiDigit d6 ∧ c2 = '-' ∧
        isAsciiDigit d7 ∧ isAsciiDigit d8
  | _ => false

def monthAbbrevs : List String :=
  ["jan", "fev", "mar", "abr", "mai", "jun", "jul", "ago", "set", "out", "nov", "dez"]

/-- `is_date_like` (`block_detector.py` 85–101), applied to the lowercased
normalized string. -/
def is_date_like (value : Cell) : Bool :=
  match normalize_cell value with
  | .str v =>
      let l := (pyLower v).data
      dateDMY '/' l ∨ dateISO l ∨ dateDMY '-' l ∨
        monthAbbrevs.any (fun m => l.take 3 = m.data)
  | _ => false

example : is_date_like (Cell.str "12/05/2024") = true := by decide
example : is_date_like (Cell.str "Janeiro") = true := by decide
example : is_date_like (Cell.str "Nome") = false := by decide

/-- `non_empty_count` (`block_detector.py` 103–105). -/
def non_empty_count (row : List Cell) : Nat :=
  row.countP (fun v => decide (normalize_cell v ≠ Cell.none))

/-- `is_row_empty` (`block_detector.py` 107–109). -/
def is_row_empty (row : List Cell) : Bool := non_empty_count row = 0

/-- Python regex `\w` over the Latin-1 range the pipeline uses: ASCII
alphanumerics, `_`, and the accented letters `À`–`ÿ` minus `×` and `÷`. -/
def isWordChar (c : Char) : Bool :=
  isAsciiDigit c ∨ ('A' ≤ c ∧ c ≤ 'Z') ∨ ('a' ≤ c ∧ c ≤ 'z') ∨ c = '_' ∨
    (0xC0 ≤ c.toNat ∧ c.toNat ≤ 0xFF ∧ c.toNat ≠ 0xD7 ∧ c.toNat ≠ 0xF7)

/-- The word-boundary condition `\b` on the left of a match position, given the
character preceding it (if any). -/
def boundaryBefore : Option Char → Bool
  | Option.none => true
  | some c => ¬ isWordChar c

/-- The word-boundary condition `\b` on the right of a match, given the rest of
the input. -/
def boundaryAfter : List Char → Bool
  | [] => true
  | c :: _ => ¬ isWordChar c

/-- `re.search`: try the positional matcher `f` at every position, tracking the
preceding character for `\b`. -/
def searchFrom (f : Option Char → List Char → Bool) : Option Char → List Char → Bool
  | prev, l =>
      f prev l ||
        match l with
        | [] => false
        | c :: t => searchFrom f (some c) t

/-- If `l` starts with `w`, the remainder after it. -/
def matchWordFrom (w l : List Char) : Option (List Char) :=
  if l.take w.length = w then some (l.drop w.length) else none

/-- Regex `\b<w>\b` (for `w` made of word characters). -/
def wordPat (w : String) (l : List Char) : Bool :=
  searchFrom
    (fun prev rest =>
      boundaryBefore prev &&
        match matchWordFrom w.data rest with
        | some r => boundaryAfter r
        | Option.none => false)
    Option.none l

/-- Regex `\b<w1>\s+<w2>\b`. -/
def twoWordPat (w1 w2 : String) (l : List Char) : Bool :=
  searchFrom
    (fun prev rest =>
      boundaryBefore prev &&
        match matchWordFrom w1.data rest with
        | some r =>
            decide (r.takeWhile isPySpace ≠ []) &&
              (match matchWordFrom w2.data (r.dropWhile isPySpace) with
               | some r2 => boundaryAfter r2
               | Option.none => false)
        | Option.none => false)
    Option.none l

/-- Regex `\b(total|soma)\s*(:|=)`. -/
def totalColonPat (l : List Char) : Bool :=
  searchFrom
    (fun prev rest =>
      boundaryBefore prev &&
        (["total", "soma"].any (fun w =>
          match matchWordFrom w.data rest with
          | some r =>
              match r.dropWhile isPySpace with
              | ':' :: _ => true
              | '=' :: _ => true
              | _ => false
          | Option.none => false)))
    Option.none l

/-- Regex `^total[:\s]`. -/
def startTotalPat (l : List Char) : Bool :=
  decide (l.take 5 = "total".data) &&
    match l.drop 5 with
    | c :: _ => decide (c = ':') || isPySpace c
    | [] => false

/-- `looks_like_total_row` (`block_detector.py` 111–158): keyword patterns over
the lowercased join of the non-empty cells, else the numeric-majority
heuristic. -/
def looks_like_total_row (row : List Cell) : Bool :=
  let parts := row.filterMap (fun v =>
    match normalize_cell v with
    | Cell.none => Option.none
    | n => some (cellStr n))
  if parts = [] then false
  else
    let head := (pyLower (String.intercalate " " parts)).data
    if wordPat "total" head ∨ wordPat "subtotal" head ∨ wordPat "totais" head ∨
        twoWordPat "total" "geral" head ∨ wordPat "geral" head ∨
        wordPat "soma" head ∨ wordPat "sum" head ∨
        twoWordPat "grand" "total" head ∨ totalColonPat head ∨
        startTotalPat head ∨ wordPat "média" head ∨ wordPat "average" head then
      true
    else
      let ne := parts.length
      if ne < 2 then false
      else
        let numeric := parts.countP (fun p => is_numeric_like (.str p))
        let text := ne - numeric
        decide (3 ≤ ne) ∧ Frac.le (fr 7 10) (ratio numeric ne) ∧ decide (text ≤ 1)

example : looks_like_total_row [Cell.str "Total", Cell.str "", Cell.int 450] = true := by decide
example : looks_like_total_row [Cell.str "Subtotal:", Cell.int 10] = true := by decide
example : looks_like_total_row [Cell.str "Ana", Cell.float (fr 7 2)] = false := by decide
example : looks_like_total_row [Cell.int 1, Cell.int 2, Cell.int 3] = true := by decide

/-- The distinct lowercased string renderings of the non-empty cells, counted
with first occurrences kept (only the count is used). -/
def dedupCount (l : List String) : Nat := l.dedup.length

/-- `header_score` (`block_detector.py` 160–212): weighted combination of
text/uniqueness/numeric/decimal/date rates, clamped to `[0, 2]`.  The float
coefficients are written as exact fractions (`1.8 = fr 18 10`, ...). -/
def header_score (row : List Cell) : Frac :=
  let ne := non_empty_count row
  if ne < 2 then fr 0 1
  else
    let cells := row.filterMap (fun v =>
      match normalize_cell v with
      | Cell.none => Option.none
      | n => some n)
    let date := cells.countP is_date_like
    let text := cells.countP (fun n => ¬ is_date_like n ∧ is_text_like n)
    let numeric := cells.countP is_numeric_like
    let decimal := cells.countP _numeric_has_decimal
    let uniq := dedupCount (cells.map (fun n => pyLower (pyStrip (cellStr n))))
    let score :=
      Frac.sub
        (Frac.sub
          (Frac.add (Frac.mul (ratio text ne) (fr 18 10)) (Frac.mul (ratio uniq ne) (fr 7 10)))
          (Frac.mul (ratio numeric ne) (fr 8 10)))
        (Frac.mul (ratio decimal ne) (fr 25 10))
    let score := if Frac.lt (fr 3 10) (ratio date ne) then Frac.add score (fr 2 10) else score
    let score := if Frac.lt (fr 2 10) (ratio decimal ne) then Frac.sub score (fr 5 10) else score
    let score := if Frac.lt (fr 7 10) (ratio numeric ne) then Frac.sub score (fr 5 10) else score
    let clamped := if Frac.lt (fr 2 1) score then fr 2 1 else score
    if Frac.lt clamped (fr 0 1) then fr 0 1 else clamped

example : Frac.lt (fr 1 1) (header_score [Cell.str "Nome", Cell.str "Valor"]) = true := by decide
example : header_score [Cell.str "Ana", Cell.float (fr 7 2)] = fr 0 1 := by decide
example : Frac.le (header_score [Cell.str "Ana", Cell.int 30]) (fr 1 1) = false := by decide

/-- The fold of `_propagate_merged_header`, carrying the last non-empty value
seen so far. -/
def propagateGo : Option Cell → List Cell → List Cell
  | _, [] => []
  | last, v :: t =>
      if normalize_cell v ≠ Cell.none then v :: propagateGo (some v) t
      else
        match last with
        | some lv => lv :: propagateGo (some lv) t
        | Option.none => v :: propagateGo Option.none t

/-- `_propagate_merged_header` (`block_detector.py` 214–229): a non-empty
cell's value fills forward into following empty cells. -/
def _propagate_merged_header (row : List Cell) : List Cell :=
  propagateGo Option.none row

example :
    _propagate_merged_header [Cell.str "Vendas", Cell.none, Cell.none, Cell.str "Custos", Cell.none] =
      [Cell.str "Vendas", Cell.str "Vendas", Cell.str "Vendas", Cell.str "Custos", Cell.str "Custos"] := by
  decide

/-- `dict.fromkeys`-style deduplication keeping first occurrences. -/
def dedupFirstGo (seen : List String) : List String → List String
  | [] => []
  | x :: t => if x ∈ seen then dedupFirstGo seen t else x :: dedupFirstGo (x :: seen) t

def dedupFirst (l : List String) : List String := dedupFirstGo [] l

/-- Replace each maximal run of characters satisfying `p` by a single space
(the two `re.sub` calls in `build_header`), fuelled by the input length. -/
def collapseRunsF (p : Char → Bool) : Nat → List Char → List Char
  | 0, l => l
  | _ + 1, [] => []
  | fuel + 1, c :: t =>
      if p c then ' ' :: collapseRunsF p fuel (t.dropWhile p)
      else c :: collapseRunsF p fuel t

def collapseRuns (p : Char → Bool) (l : List Char) : List Char :=
  collapseRunsF p l.length l

def isNRT (c : Char) : Bool := c = '\n' ∨ c = '\r' ∨ c = '\t'

/-- The name clean-up in `build_header`: `[\n\r\t]+ → ' '`, then `\s+ → ' '`,
then strip. -/
def cleanName (s : String) : String :=
  pyStrip ⟨collapseRuns isPySpace (collapseRuns isNRT s.data)⟩

/-- The `seen` map of `build_header`'s uniqueness pass: lookup of the latest
count for a lowercased key. -/
def seenGet (seen : List (String × Nat)) (k : String) : Nat :=
  match seen.find? (fun p => p.1 = k) with
  | some p => p.2
  | Option.none => 0

/-- The uniqueness pass of `build_header`: empty names become `col_<n>`
(1-based), and a repeated (lowercased) name gets `_2`, `_3`, ... appended. -/
def uniquifyGo (seen : List (String × Nat)) (idx : Nat) : List String → List String
  | [] => []
  | h :: t =>
      let base0 := if h ≠ "" ∧ pyStrip h ≠ "" then pyStrip h else "col_" ++ toString (idx + 1)
      let base := cleanName base0
      let key := pyLower base
      let cnt := seenGet seen key + 1
      let out := if cnt = 1 then base else base ++ "_" ++ toString cnt
      out :: uniquifyGo ((key, cnt) :: seen) (idx + 1) t

/-- `build_header` (`block_detector.py` 231–269): up to three propagated header
rows, per-column join of the distinct non-empty values, then the uniqueness
pass. -/
def build_header (grid : List (List Cell)) (header_row_index span : Nat) : List String :=
  let row0 := _propagate_merged_header
    (if header_row_index < grid.length then grid.getD header_row_index [] else [])
  let row1 := _propagate_merged_header
    (if 2 ≤ span ∧ header_row_index + 1 < grid.length then grid.getD (header_row_index + 1) [] else [])
  let row2 := _propagate_merged_header
    (if 3 ≤ span ∧ header_row_index + 2 < grid.length then grid.getD (header_row_index + 2) [] else [])
  let maxCols := max row0.length (max row1.length row2.length)
  let headers := (List.range maxCols).map (fun c =>
    let a := normalize_cell (row0.getD c Cell.none)
    let b := normalize_cell (row1.getD c Cell.none)
    let d := normalize_cell (row2.getD c Cell.none)
    let parts := [a, b, d].filterMap (fun x =>
      match x with
      | Cell.none => Option.none
      | n => let t := pyStrip (cellStr n); if t = "" then Option.none else some t)
    String.intercalate " " (dedupFirst parts))
  uniquifyGo [] 0 headers

example :
    build_header [[Cell.str "Vendas", Cell.none, Cell.none],
      [Cell.str "Qtd", Cell.str "Preço", Cell.str "Total"]] 0 2 =
      ["Vendas Qtd", "Vendas Preço", "Vendas Total"] := by decide

example :
    build_header [[Cell.str "a", Cell.str "a", Cell.str "a_2"]] 0 1 = ["a", "a_2", "a_2"] := by
  decide

/-- Regex `^(módulo|modulo|seção|secao|parte|bloco)\s*\d`. -/
def titleKeywordPat (l : List Char) : Bool :=
  ["módulo", "modulo", "seção", "secao", "parte", "bloco"].any (fun w =>
    decide (l.take w.data.length = w.data) &&
      match (l.drop w.data.length).dropWhile isPySpace with
      | c :: _ => isAsciiDigit c
      | [] => false)

/-- Regex `^[A-Z]{2,}\s*[-–]\s*` under `re.I` (so any ASCII letters). -/
def titleDashPat (l : List Char) : Bool :=
  let letters := l.takeWhile (fun c => ('a' ≤ c ∧ c ≤ 'z') ∨ ('A' ≤ c ∧ c ≤ 'Z'))
  decide (2 ≤ letters.length) &&
    match (l.drop letters.length).dropWhile isPySpace with
    | c :: _ => decide (c = '-') || decide (c = '–')
    | [] => false

/-- `looks_like_section_title_row` (`block_detector.py` 305–330). -/
def looks_like_section_title_row (row : List Cell) : Bool :=
  let nonEmpty := row.filterMap (fun v =>
    match normalize_cell v with
    | Cell.none => Option.none
    | n => some n)
  if nonEmpty.length = 0 then false
  else if 2 < nonEmpty.length then false
  else
    let first := normalize_cell (row.getD 0 Cell.none)
    if ¬ is_text_like first then false
    else
      let firstStr := (pyLower (cellStr first)).data
      if titleKeywordPat firstStr ∨ titleDashPat firstStr then true
      else (row.drop 1).countP (fun v => decide (normalize_cell v ≠ Cell.none)) = 0

example : looks_like_section_title_row [Cell.str "MÓDULO 6 - VENDAS", Cell.none] = true := by decide
example : looks_like_section_title_row [Cell.str "Ana", Cell.float (fr 7 2)] = false := by decide

/-- The `best is None or score > best["score"]` update of `find_next_header`:
a candidate replaces the incumbent only on strictly greater score. -/
def fnhBetter (cand : Nat × Nat × Frac) : Option (Nat × Nat × Frac) → Nat × Nat × Frac
  | Option.none => cand
  | some b => if Frac.lt b.2.2 cand.2.2 then cand else b

/-- The scan loop of `find_next_header`: over rows `r < limit`, keep the first
candidate with strictly greatest composite score.  `best` carries
`(rowIndex, span, score)`; fuelled (`fuel ≥ limit - r` suffices). -/
def fnhAux (grid : List (List Cell)) (limit : Nat) :
    Nat → Nat → Option (Nat × Nat × Frac) → Option (Nat × Nat × Frac)
  | 0, _, best => best
  | fuel + 1, r, best =>
      if r < limit then
        let row := grid.getD r []
        if is_row_empty row then fnhAux grid limit fuel (r + 1) best
        else
          let s0 := header_score row
          if Frac.le s0 (fr 40 100) then fnhAux grid limit fuel (r + 1) best
          else
            let s1 := header_score (if r + 1 < grid.length then grid.getD (r + 1) [] else [])
            let span1 := if Frac.lt (fr 45 100) s1 then 2 else 1
            let s2 := header_score (if r + 2 < grid.length then grid.getD (r + 2) [] else [])
            let span := if span1 = 2 ∧ Frac.lt (fr 45 100) s2 then 3 else span1
            let score :=
              Frac.add
                (Frac.add s0 (if 2 ≤ span then Frac.mul s1 (fr 3 10) else fr 0 1))
                (if span = 3 then Frac.mul s2 (fr 15 100) else fr 0 1)
            fnhAux grid limit fuel (r + 1) (some (fnhBetter (r, span, score) best))
      else best

/-- `find_next_header` (`block_detector.py` 271–303): bounded 300-row scan,
returning `(rowIndex, span)` of the best candidate. -/
def find_next_header (grid : List (List Cell)) (start_row : Nat) : Option (Nat × Nat) :=
  let limit := min grid.length (start_row + 300)
  (fnhAux grid limit limit start_row Option.none).map (fun b => (b.1, b.2.1))

example :
    find_next_header [[Cell.none, Cell.none], [Cell.str "Nome", Cell.str "Idade"],
      [Cell.str "Ana", Cell.int 30]] 0 = some (1, 2) := by decide

example :
    find_next_header [[Cell.str "Nome", Cell.str "Valor"], [Cell.str "Ana", Cell.float (fr 7 2)]] 0 =
      some (0, 1) := by decide

/-- The `while ... is_row_empty` cursors of `detect_blocks`, fuelled
(`fuel ≥ grid.length - r` suffices, see `skipEmptyF_stable`). -/
def skipEmptyF (grid : List (List Cell)) : Nat → Nat → Nat
  | 0, r => r
  | fuel + 1, r =>
      if r < grid.length ∧ is_row_empty (grid.getD r []) then skipEmptyF grid fuel (r + 1)
      else r

/-- First row index `≥ r` that is not empty (or `grid.length`). -/
def skipEmpty (grid : List (List Cell)) (r : Nat) : Nat :=
  skipEmptyF grid (grid.length + 1) r

/-- The data-extent loop of `detect_blocks` (`block_detector.py` 364–401),
fuelled (`grid.length + 1` suffices).  State: current row `r`, current
`data_end` `de`, blank tolerances granted `skips`.  Returns
`(data_end, final r)`. -/
def scanExtent (grid : List (List Cell)) (ds : Nat) : Nat → Nat → Nat → Nat → Nat × Nat
  | 0, r, de, _ => (de, r)
  | fuel + 1, r, de, skips =>
      if r < grid.length then
        let row := grid.getD r []
        if looks_like_section_title_row row ∧ ds + 1 < r then (r - 1, r)
        else if is_row_empty row then
          let k := skipEmpty grid r
          let nextLooksHeader :=
            if k < grid.length then Frac.lt (fr 65 100) (header_score (grid.getD k [])) else false
          let blankSpan := k - r
          if ¬ nextLooksHeader = true ∧ blankSpan ≤ 3 ∧ skips < 3 then
            scanExtent grid ds fuel k de (skips + 1)
          else (r - 1, k)
        else if Frac.lt (fr 1 1) (header_score row) ∧ ds + 2 < r then (r - 1, r)
        else scanExtent grid ds fuel (r + 1) r skips
      else (de, r)

/-- The per-row clean-up of an emitted block: normalize and cut/pad to the
column count (`block_detector.py` 415). -/
def cleanRow (columns : List String) (row : List Cell) : List Cell :=
  (List.range columns.length).map (fun c => normalize_cell (row.getD c Cell.none))

/-- One step of the row-collection loop of `detect_blocks`
(`block_detector.py` 403–417): skip empty rows, count and skip total rows,
keep cleaned rows that are still non-empty. -/
def blockRowsStep (grid : List (List Cell)) (columns : List String)
    (acc : List (List Cell) × Nat) (rr : Nat) : List (List Cell) × Nat :=
  let row := grid.getD rr []
  if is_row_empty row then acc
  else if looks_like_total_row row then (acc.1, acc.2 + 1)
  else
    let cleaned := cleanRow columns row
    if 0 < non_empty_count cleaned then (acc.1 ++ [cleaned], acc.2) else acc

/-- The row-collection loop of `detect_blocks` over the data extent.  Returns
`(rows, removed_totals)`. -/
def blockRows (grid : List (List Cell)) (columns : List String) (ds de : Nat) :
    List (List Cell) × Nat :=
  (List.range' ds (de + 1 - ds)).foldl (blockRowsStep grid columns) ([], 0)

/-- Declarative rendering of one row-collection step, following the spec's
words (§4.3 step 5): within the extent, fully-empty rows and total rows are
dropped, the rest are normalized, cut to the column count, and kept only if
still non-empty.  Compared against `blockRows` in the theorems for claim
C7. -/
def keepCleaned (grid : List (List Cell)) (columns : List String) (rr : Nat) :
    Option (List Cell) :=
  let row := grid.getD rr []
  if is_row_empty row then Option.none
  else if looks_like_total_row row then Option.none
  else
    let cleaned := cleanRow columns row
    if 0 < non_empty_count cleaned then some cleaned else Option.none

/-- One detected table (`block_detector.py` 421–429). -/
structure Block where
  header_row : Nat
  header_span : Nat
  data_start : Nat
  data_end : Nat
  columns : List String
  rows : List (List Cell)
  removed_totals : Nat
deriving DecidableEq, Repr

/-- One iteration of the segmentation loop of `detect_blocks`
(`block_detector.py` 344–431): skip empty rows, find a header, build the
columns, scan the data extent, collect the rows; returns the emitted block
(if any) and the new cursor `max(r, data_end + 1)`. -/
def detectIter (grid : List (List Cell)) (cursor : Nat) : Option Block × Nat :=
  let c1 := skipEmpty grid cursor
  if grid.length ≤ c1 then (Option.none, c1)
  else
    match find_next_header grid c1 with
    | Option.none => (Option.none, c1 + 1)
    | some h =>
        let hri := h.1
        let span := h.2
        let columns := build_header grid hri span
        let ds := skipEmpty grid (hri + span)
        let scanned := scanExtent grid ds (grid.length + 1) ds (ds - 1) 0
        let de := scanned.1
        let rf := scanned.2
        let rows := blockRows grid columns ds de
        let b :=
          if rows.1 ≠ [] then some (Block.mk hri span ds de columns rows.1 rows.2)
          else Option.none
        (b, max rf (de + 1))

/-- The outer cursor loop of `detect_blocks`, fuelled (one unit of fuel per
iteration; `grid.length + 1` suffices, see the termination theorem for C10). -/
def detectLoop (grid : List (List Cell)) : Nat → Nat → List Block → List Block
  | 0, _, acc => acc.reverse
  | fuel + 1, cursor, acc =>
      if grid.length ≤ cursor then acc.reverse
      else
        let step := detectIter grid cursor
        detectLoop grid fuel step.2
          (match step.1 with
           | some b => b :: acc
           | Option.none => acc)

/-- `detect_blocks` (`block_detector.py` 332–435) for a single sheet's grid
(the Python function maps this over the sheets of a workbook). -/
def detect_blocks (grid : List (List Cell)) : List Block :=
  detectLoop grid (grid.length + 1) 0 []

/-- The regex substitution `re.sub(r"[R$\s]", "", s)` of
`convert_brazilian_numbers` (`metrics_engine.py` 353/374). -/
def brStrip (s : String) : List Char :=
  s.data.filter (fun c => ¬ (c = 'R' ∨ c = '$' ∨ isPySpace c))

/-- Regex `^-?[\d.]+,\d{1,2}$` (Brazilian shape `1.234,56`). -/
def brPat1 (l : List Char) : Bool :=
  let l1 := match l with | '-' :: t => t | _ => l
  let body := l1.takeWhile (fun c => isAsciiDigit c ∨ c = '.')
  let rest := l1.dropWhile (fun c => isAsciiDigit c ∨ c = '.')
  decide (body ≠ []) &&
    match rest with
    | ',' :: ds => decide (ds ≠ []) && decide (ds.length ≤ 2) && ds.all isAsciiDigit
    | _ => false

/-- Regex `^-?[\d,]+\.\d{1,2}$` (American shape `1,234.56`). -/
def brPat2 (l : List Char) : Bool :=
  let l1 := match l with | '-' :: t => t | _ => l
  let body := l1.takeWhile (fun c => isAsciiDigit c ∨ c = ',')
  let rest := l1.dropWhile (fun c => isAsciiDigit c ∨ c = ',')
  decide (body ≠ []) &&
    match rest with
    | '.' :: ds => decide (ds ≠ []) && decide (ds.length ≤ 2) && ds.all isAsciiDigit
    | _ => false

/-- Regex `^-?\d+([.,]\d+)?$` (plain `1234` or `1234.56`). -/
def brPat3 (l : List Char) : Bool :=
  let l1 := match l with | '-' :: t => t | _ => l
  let ip := l1.takeWhile isAsciiDigit
  let rest := l1.dropWhile isAsciiDigit
  decide (ip ≠ []) &&
    match rest with
    | [] => true
    | c :: ds => (decide (c = '.') || decide (c = ',')) && decide (ds ≠ []) && ds.all isAsciiDigit

/-- A sampled value matches one of the three numeric shapes. -/
def matchesBr (l : List Char) : Bool := brPat1 l || brPat2 l || brPat3 l

/-- `series.dropna().head(20)`: the first (up to) 20 non-null values. -/
def brSample (series : List Cell) : List Cell :=
  (series.filter (fun v => decide (v ≠ Cell.none ∧ v ≠ Cell.nan))).take 20

/-- The sample size `total` of `convert_brazilian_numbers`. -/
def brTotal (series : List Cell) : Nat := (brSample series).length

/-- The `numeric_count` of `convert_brazilian_numbers`: sampled values whose
stripped rendering matches a numeric shape. -/
def brNumericCount (series : List Cell) : Nat :=
  (brSample series).countP (fun v => matchesBr (brStrip (pyStrip (cellStr v))))

/-- `convert_value` (`metrics_engine.py` 368–391): strip `R$`/spaces; with both
separators the rightmost one is the decimal point; a lone comma is decimal;
parse as float, `NaN` (here `Option.none`) on failure.  The comparison
`s.rindex(",") > s.rindex(".")` is rendered as: the last `,` occurs after the
last `.`, i.e. its index from the end is smaller. -/
def convert_value (v : Cell) : Option Frac :=
  match v with
  | Cell.none => Option.none
  | Cell.nan => Option.none
  | _ =>
      let s := brStrip (pyStrip (cellStr v))
      let s2 :=
        if s.contains ',' ∧ s.contains '.' then
          if s.reverse.findIdx (fun c => c = ',') < s.reverse.findIdx (fun c => c = '.') then
            (s.filter (fun c => c ≠ '.')).map (fun c => if c = ',' then '.' else c)
          else s.filter (fun c => c ≠ ',')
        else if s.contains ',' then s.map (fun c => if c = ',' then '.' else c)
        else s
      match parsePyFloat s2 with
      | .finite q => some q
      | .nan => Option.none
      | .err => Option.none

/-- `convert_brazilian_numbers` (`metrics_engine.py` 339–393): `Option.none`
means the column does not look numeric and is returned untouched by the caller
(`metrics_engine.py` 285–287). -/
def convert_brazilian_numbers (series : List Cell) : Option (List (Option Frac)) :=
  if brTotal series = 0 ∨ Frac.lt (ratio (brNumericCount series) (brTotal series)) (fr 5 10) then
    Option.none
  else some (series.map convert_value)

example : convert_value (Cell.str "1.234,56") = some (fr 123456 100) := by decide
example : convert_value (Cell.str "1,234.56") = some (fr 123456 100) := by decide
example : convert_value (Cell.str "R$ 45,00") = some (fr 4500 100) := by decide
example : convert_value (Cell.str "abc") = Option.none := by decide

/-- `notna` count of a pandas column: cells that are neither `None` nor NaN
(an empty string *is* non-null for pandas). -/
def notnaCount (col : List Cell) : Nat :=
  col.countP (fun v => decide (v ≠ Cell.none ∧ v ≠ Cell.nan))

/-- `remove_empty_columns` (`cleaner.py` 82–101), on a dataframe given as its
list of columns (all of the first column's length): drop columns whose
non-null fraction is not `> 0.02`, keeping everything when the frame is empty
or when no column passes. -/
def remove_empty_columns (cols : List (List Cell)) : List (List Cell) :=
  match cols with
  | [] => []
  | c0 :: _ =>
      if c0.length = 0 then cols
      else
        let keep := cols.filter (fun c => Frac.lt (fr 2 100) (ratio (notnaCount c) c0.length))
        if keep = [] then cols else keep

example : remove_empty_columns [[Cell.str "x"], [Cell.none]] = [[Cell.str "x"]] := by decide
example : remove_empty_columns [[Cell.none], [Cell.none]] = [[Cell.none], [Cell.none]] := by decide

/-! ## Concrete scenario grids (inputs for the claim theorems) -/

/-- Scenario D (C1): a blank run of 2 rows inside a table, no strong header
below. -/
def gridBlankRun : List (List Cell) :=
  [[Cell.str "Nome", Cell.str "Valor"],
   [Cell.str "Ana", Cell.float (fr 7 2)],
   [Cell.str "Bia", Cell.float (fr 9 2)],
   [Cell.none, Cell.none],
   [Cell.none, Cell.none],
   [Cell.str "Caio", Cell.float (fr 11 2)]]

/-- C1 counterexample input: four single-row blank gaps; the fourth gap arrives
with 3 tolerances already granted. -/
def gridFourGaps : List (List Cell) :=
  [[Cell.str "Nome", Cell.str "Valor"],
   [Cell.str "Ana", Cell.float (fr 7 2)],
   [Cell.none, Cell.none],
   [Cell.str "Bia", Cell.float (fr 9 2)],
   [Cell.none, Cell.none],
   [Cell.str "Caio", Cell.float (fr 11 2)],
   [Cell.none, Cell.none],
   [Cell.str "Davi", Cell.float (fr 13 2)],
   [Cell.none, Cell.none],
   [Cell.str "Edu", Cell.float (fr 15 2)]]

/-- C5 counterexample input: a row scoring `> 1.0` as a header arriving after
exactly 2 data rows (`r = data_start + 2`). -/
def gridEarlyHeader : List (List Cell) :=
  [[Cell.str "Nome", Cell.str "Valor"],
   [Cell.str "Ana", Cell.float (fr 7 2)],
   [Cell.str "Bia", Cell.float (fr 9 2)],
   [Cell.str "Cargo", Cell.str "Preço"]]

/-- C5 witness input: the strong header-like row arrives after 3 data rows
(`r > data_start + 2`), so it ends the block. -/
def gridLateHeader : List (List Cell) :=
  [[Cell.str "Nome", Cell.str "Valor"],
   [Cell.str "Ana", Cell.float (fr 7 2)],
   [Cell.str "Bia", Cell.float (fr 9 2)],
   [Cell.str "Caio", Cell.float (fr 11 2)],
   [Cell.str "Cargo", Cell.str "Preço"]]

/-- Scenario C (C7): a `Total` row among sales rows. -/
def gridTotals : List (List Cell) :=
  [[Cell.str "Produto", Cell.str "Região", Cell.str "Valor"],
   [Cell.str "Caneta", Cell.str "Sul", Cell.float (fr 7 2)],
   [Cell.str "Total", Cell.str "", Cell.int 450],
   [Cell.str "Lápis", Cell.str "Norte", Cell.float (fr 9 2)]]

/-! ## Shared lemmas -/

theorem dropWhile_rdropWhile_self (m : List Char)
    (hm : List.dropWhile isPySpace m = m) :
    List.dropWhile isPySpace (List.rdropWhile isPySpace m) = List.rdropWhile isPySpace m := by
  rcases hr : List.rdropWhile isPySpace m with _ | ⟨a, t⟩
  · rfl
  · have hpref : List.rdropWhile isPySpace m <+: m := List.rdropWhile_prefix _ _
    rw [hr] at hpref
    obtain ⟨r, hrap⟩ := hpref
    have hm2 : m = a :: (t ++ r) := by rw [← hrap]; rfl
    have hpa : isPySpace a = false := by
      by_contra hpa
      have hpa' : isPySpace a = true := by
        cases hb : isPySpace a
        · exact absurd hb hpa
        · rfl
      rw [hm2, List.dropWhile_cons, if_pos hpa'] at hm
      have hlen := congrArg List.length hm
      have hle := (List.dropWhile_sublist (l := t ++ r) (p := isPySpace)).length_le
      simp [List.length_append] at hlen hle
      omega
    rw [List.dropWhile_cons, hpa]
    simp

theorem stripList_idem (l : List Char) : stripList (stripList l) = stripList l := by
  have hm : List.dropWhile isPySpace (List.dropWhile isPySpace l) = List.dropWhile isPySpace l :=
    List.dropWhile_idempotent _ _
  show List.rdropWhile isPySpace
      (List.dropWhile isPySpace (List.rdropWhile isPySpace (List.dropWhile isPySpace l))) =
    List.rdropWhile isPySpace (List.dropWhile isPySpace l)
  rw [dropWhile_rdropWhile_self _ hm, List.rdropWhile_idempotent]

theorem pyStrip_idem (s : String) : pyStrip (pyStrip s) = pyStrip s :=
  congrArg String.mk (stripList_idem s.data)

/-! ## Claim C8 — normalization is idempotent -/

/-- C8: cell normalization is idempotent: for every raw cell value `x`,
`normalize(normalize(x)) = normalize(x)`; `normalize` is total over raw cell
values, including the `"#DIV/0!"` and `"-"` special cases. -/
theorem normalize_cell_idempotent (x : Cell) :
    normalize_cell (normalize_cell x) = normalize_cell x := by
  cases x with
  | none => rfl
  | nan => rfl
  | int i => rfl
  | float f => rfl
  | str s =>
      by_cases h1 : pyStrip s = ""
      · simp [normalize_cell, h1]
      by_cases h2 : pyLower (pyStrip s) = "nan"
      · simp [normalize_cell, h1, h2]
      by_cases h3 : pyStrip s = "#DIV/0!"
      · simp only [normalize_cell, h1, h2, h3, if_neg, if_pos, if_false, if_true]
        simp [h1, h2, h3]
        decide
      by_cases h4 : pyStrip s = "-"
      · simp [normalize_cell, h1, h2, h3, h4]
      · have hidem := pyStrip_idem s
        simp [normalize_cell, h1, h2, h3, h4, hidem]

/-! ## Claim C4 — the normalization mapping -/

/-- C4 counterexample: the division-error token `"#DIV/0!"` normalizes to the
*string* `"0"`, not to the number `0` (neither the int `0` nor the float
`0.0`). -/
theorem div0_normalizes_to_string_zero :
    normalize_cell (Cell.str "#DIV/0!") = Cell.str "0" ∧
      Cell.str "0" ≠ Cell.int 0 ∧ Cell.str "0" ≠ Cell.float (fr 0 1) := by
  decide

/-- C4 (amended): normalization maps null, NaN, blank-after-trim strings, the
literal `"nan"` (any capitalisation) and the placeholder `"-"` to empty; maps
`"#DIV/0!"` to the **string** `"0"`; trims strings; and passes numbers through
unchanged. -/
theorem normalize_cell_mapping :
    normalize_cell Cell.none = Cell.none ∧
    normalize_cell Cell.nan = Cell.none ∧
    (∀ s : String, pyStrip s = "" → normalize_cell (Cell.str s) = Cell.none) ∧
    (∀ s : String, pyLower (pyStrip s) = "nan" → normalize_cell (Cell.str s) = Cell.none) ∧
    (∀ s : String, pyStrip s = "-" → normalize_cell (Cell.str s) = Cell.none) ∧
    (∀ s : String, pyStrip s = "#DIV/0!" → normalize_cell (Cell.str s) = Cell.str "0") ∧
    (∀ s : String, pyStrip s ≠ "" → pyLower (pyStrip s) ≠ "nan" → pyStrip s ≠ "#DIV/0!" →
      pyStrip s ≠ "-" → normalize_cell (Cell.str s) = Cell.str (pyStrip s)) ∧
    (∀ i : Int, normalize_cell (Cell.int i) = Cell.int i) ∧
    (∀ f : Frac, normalize_cell (Cell.float f) = Cell.float f) := by
  refine ⟨rfl, rfl, ?_, ?_, ?_, ?_, ?_, fun i => rfl, fun f => rfl⟩
  · intro s h; simp [normalize_cell, h]
  · intro s h
    by_cases h0 : pyStrip s = ""
    · simp [normalize_cell, h0]
    · simp [normalize_cell, h0, h]
  · intro s h
    simp only [normalize_cell, h]
    decide
  · intro s h
    simp only [normalize_cell, h]
    decide
  · intro s h1 h2 h3 h4
    simp [normalize_cell, h1, h2, h3, h4]

/-- Witness for `normalize_cell_mapping` at concrete inputs. -/
theorem normalize_cell_mapping_witness :
    normalize_cell (Cell.str "   ") = Cell.none ∧
      normalize_cell (Cell.str " NaN ") = Cell.none ∧
      normalize_cell (Cell.str " - ") = Cell.none ∧
      normalize_cell (Cell.str " #DIV/0! ") = Cell.str "0" ∧
      normalize_cell (Cell.str "  Vendas  ") = Cell.str "Vendas" := by
  refine ⟨?_, ?_, ?_, ?_, ?_⟩
  · exact normalize_cell_mapping.2.2.1 "   " (by decide)
  · exact normalize_cell_mapping.2.2.2.1 " NaN " (by decide)
  · exact normalize_cell_mapping.2.2.2.2.1 " - " (by decide)
  · exact normalize_cell_mapping.2.2.2.2.2.1 " #DIV/0! " (by decide)
  · exact normalize_cell_mapping.2.2.2.2.2.2.1 "  Vendas  " (by decide) (by decide) (by decide)
      (by decide)

/-! ## Claim C10 — termination of the segmentation loop -/

theorem skipEmptyF_ge (grid : List (List Cell)) :
    ∀ (fuel r : Nat), r ≤ skipEmptyF grid fuel r := by
  intro fuel
  induction fuel with
  | zero => intro r; rw [skipEmptyF]
  | succ fuel ih =>
      intro r
      rw [skipEmptyF]
      split
      · exact le_trans (Nat.le_succ r) (ih (r + 1))
      · exact le_refl r

theorem skipEmpty_ge (grid : List (List Cell)) (r : Nat) : r ≤ skipEmpty grid r :=
  skipEmptyF_ge grid (grid.length + 1) r

theorem span_ge_one (p q : Prop) [Decidable p] [Decidable q] :
    1 ≤ (if (if p then 2 else 1) = 2 ∧ q then 3 else if p then 2 else 1) := by
  by_cases hp : p <;> by_cases hq : q <;> simp [hp, hq]

theorem fnhBetter_inv (P : Nat × Nat × Frac → Prop) (cand : Nat × Nat × Frac)
    (best : Option (Nat × Nat × Frac)) (hc : P cand)
    (hb : ∀ x, best = some x → P x) : P (fnhBetter cand best) := by
  cases best with
  | none => exact hc
  | some b =>
      rw [fnhBetter]
      split
      · exact hc
      · exact hb b rfl

theorem fnhAux_inv (grid : List (List Cell)) (limit s : Nat) :
    ∀ (fuel r : Nat) (best : Option (Nat × Nat × Frac)), s ≤ r →
      (∀ x, best = some x → s ≤ x.1 ∧ 1 ≤ x.2.1) →
      ∀ y, fnhAux grid limit fuel r best = some y → s ≤ y.1 ∧ 1 ≤ y.2.1 := by
  intro fuel
  induction fuel with
  | zero =>
      intro r best hr hbest y hy
      rw [fnhAux] at hy
      exact hbest y hy
  | succ fuel ih =>
      intro r best hr hbest y hy
      rw [fnhAux] at hy
      by_cases hlim : r < limit
      · rw [if_pos hlim] at hy
        by_cases hemp : is_row_empty (grid.getD r []) = true
        · rw [if_pos hemp] at hy
          exact ih (r + 1) best (le_trans hr (Nat.le_succ r)) hbest y hy
        · rw [if_neg hemp] at hy
          by_cases hs0 : Frac.le (header_score (grid.getD r [])) (fr 40 100) = true
          · rw [if_pos hs0] at hy
            exact ih (r + 1) best (le_trans hr (Nat.le_succ r)) hbest y hy
          · rw [if_neg hs0] at hy
            refine ih (r + 1) _ (le_trans hr (Nat.le_succ r)) ?_ y hy
            intro x hx
            cases hx
            refine fnhBetter_inv (fun x => s ≤ x.1 ∧ 1 ≤ x.2.1) _ best ?_ hbest
            exact ⟨hr, span_ge_one _ _⟩
      · rw [if_neg hlim] at hy
        exact hbest y hy

theorem find_next_header_ge (grid : List (List Cell)) (s : Nat) (ri sp : Nat)
    (h : find_next_header grid s = some (ri, sp)) : s ≤ ri ∧ 1 ≤ sp := by
  rw [find_next_header] at h
  simp only [Option.map_eq_some'] at h
  obtain ⟨y, hy, hmap⟩ := h
  have := fnhAux_inv grid (min grid.length (s + 300)) s (min grid.length (s + 300)) s
    Option.none (le_refl s) (by intro x hx; cases hx) y hy
  cases hmap
  exact this

theorem scanExtent_de_ge (grid : List (List Cell)) (ds : Nat) :
    ∀ (fuel r de skips : Nat), ds ≤ r → ds - 1 ≤ de →
      ds - 1 ≤ (scanExtent grid ds fuel r de skips).1 := by
  intro fuel
  induction fuel with
  | zero => intro r de skips hr hde; rw [scanExtent]; exact hde
  | succ fuel ih =>
      intro r de skips hr hde
      rw [scanExtent]
      by_cases h1 : r < grid.length
      · rw [if_pos h1]
        by_cases h2 : looks_like_section_title_row (grid.getD r []) = true ∧ ds + 1 < r
        · rw [if_pos h2]; omega
        · rw [if_neg h2]
          by_cases h3 : is_row_empty (grid.getD r []) = true
          · rw [if_pos h3]
            dsimp only
            split <;> split
            · exact ih (skipEmpty grid r) de (skips + 1)
                (le_trans hr (skipEmpty_ge grid r)) hde
            · show ds - 1 ≤ r - 1
              omega
            · exact ih (skipEmpty grid r) de (skips + 1)
                (le_trans hr (skipEmpty_ge grid r)) hde
            · show ds - 1 ≤ r - 1
              omega
          · rw [if_neg h3]
            by_cases h4 : Frac.lt (fr 1 1) (header_score (grid.getD r [])) = true ∧ ds + 2 < r
            · rw [if_pos h4]; omega
            · rw [if_neg h4]
              exact ih (r + 1) r skips (le_trans hr (Nat.le_succ r)) (by omega)
      · rw [if_neg h1]; exact hde

theorem detectIter_progress (grid : List (List Cell)) (cursor : Nat)
    (h : cursor < grid.length) : cursor < (detectIter grid cursor).2 := by
  have hge : cursor ≤ skipEmpty grid cursor := skipEmpty_ge grid cursor
  rw [detectIter]
  by_cases h1 : grid.length ≤ skipEmpty grid cursor
  · rw [if_pos h1]; omega
  · rw [if_neg h1]
    cases hfnh : find_next_header grid (skipEmpty grid cursor) with
    | none => simp only []; omega
    | some hd =>
        obtain ⟨hri, hsp⟩ := find_next_header_ge grid (skipEmpty grid cursor) hd.1 hd.2 (by
          rw [hfnh])
        simp only []
        have hds : hd.1 + hd.2 ≤ skipEmpty grid (hd.1 + hd.2) := skipEmpty_ge grid _
        have hde : skipEmpty grid (hd.1 + hd.2) - 1 ≤
            (scanExtent grid (skipEmpty grid (hd.1 + hd.2)) (grid.length + 1)
              (skipEmpty grid (hd.1 + hd.2)) (skipEmpty grid (hd.1 + hd.2) - 1) 0).1 :=
          scanExtent_de_ge grid _ _ _ _ _ (le_refl _) (le_refl _)
        omega

theorem detectLoop_end (grid : List (List Cell)) (fuel cursor : Nat) (acc : List Block)
    (h : grid.length ≤ cursor) : detectLoop grid fuel cursor acc = acc.reverse := by
  cases fuel with
  | zero => rw [detectLoop]
  | succ fuel => rw [detectLoop, if_pos h]

theorem detectLoop_fuel_irrelevant (grid : List (List Cell)) :
    ∀ (n f1 f2 cursor : Nat) (acc : List Block),
      grid.length - cursor ≤ n → grid.length - cursor ≤ f1 → grid.length - cursor ≤ f2 →
      detectLoop grid f1 cursor acc = detectLoop grid f2 cursor acc := by
  intro n
  induction n with
  | zero =>
      intro f1 f2 cursor acc h0 h1 h2
      have hc : grid.length ≤ cursor := by omega
      rw [detectLoop_end grid f1 cursor acc hc, detectLoop_end grid f2 cursor acc hc]
  | succ n ih =>
      intro f1 f2 cursor acc h0 h1 h2
      by_cases hc : grid.length ≤ cursor
      · rw [detectLoop_end grid f1 cursor acc hc, detectLoop_end grid f2 cursor acc hc]
      · have hlt : cursor < grid.length := by omega
        cases f1 with
        | zero => omega
        | succ g1 =>
            cases f2 with
            | zero => omega
            | succ g2 =>
                rw [detectLoop, detectLoop, if_neg hc, if_neg hc]
                have hprog := detectIter_progress grid cursor hlt
                exact ih g1 g2 (detectIter grid cursor).2 _ (by omega) (by omega) (by omega)

/-- C10: `detect_blocks` terminates on every finite grid: each iteration of the
segmentation loop strictly advances the cursor, so one unit of fuel per
remaining row suffices — any fuel of at least `grid.length - cursor` (in
particular the `grid.length + 1` used by `detect_blocks` from cursor `0`)
computes the same, completed result. -/
theorem detect_blocks_terminating :
    (∀ (grid : List (List Cell)) (cursor : Nat), cursor < grid.length →
      cursor < (detectIter grid cursor).2) ∧
    (∀ (grid : List (List Cell)) (fuel cursor : Nat) (acc : List Block),
      grid.length - cursor ≤ fuel →
      detectLoop grid fuel cursor acc = detectLoop grid (grid.length - cursor) cursor acc) :=
  ⟨detectIter_progress, fun grid fuel cursor acc hf =>
    detectLoop_fuel_irrelevant grid (grid.length - cursor) fuel (grid.length - cursor) cursor acc
      (le_refl _) hf (le_refl _)⟩

/-- Witness for `detect_blocks_terminating` at a concrete grid. -/
theorem detect_blocks_terminating_witness :
    0 < (detectIter gridBlankRun 0).2 ∧
      detectLoop gridBlankRun 50 0 [] = detectLoop gridBlankRun (gridBlankRun.length - 0) 0 [] :=
  ⟨detect_blocks_terminating.1 gridBlankRun 0 (by decide),
    detect_blocks_terminating.2 gridBlankRun 50 0 [] (by decide)⟩

/-! ## Claim C7 — invariants of emitted blocks -/

theorem cleanRow_length (columns : List String) (row : List Cell) :
    (cleanRow columns row).length = columns.length := by
  simp [cleanRow]

theorem blockRows_foldl (grid : List (List Cell)) (columns : List String) :
    ∀ (idxs : List Nat) (acc : List (List Cell)) (cnt : Nat),
      idxs.foldl (blockRowsStep grid columns) (acc, cnt) =
        (acc ++ idxs.filterMap (keepCleaned grid columns),
         cnt + idxs.countP (fun rr => decide (is_row_empty (grid.getD rr []) = false ∧
            looks_like_total_row (grid.getD rr []) = true))) := by
  intro idxs
  induction idxs with
  | nil => intro acc cnt; simp
  | cons rr t ih =>
      intro acc cnt
      by_cases h1 : is_row_empty (grid.getD rr []) = true
      · have hstep : blockRowsStep grid columns (acc, cnt) rr = (acc, cnt) := by
          rw [blockRowsStep]; dsimp only; rw [if_pos h1]
        have hkeep : keepCleaned grid columns rr = Option.none := by
          rw [keepCleaned]; dsimp only; rw [if_pos h1]
        have hpred : decide (is_row_empty (grid.getD rr []) = false ∧
            looks_like_total_row (grid.getD rr []) = true) = false := by
          apply decide_eq_false
          intro hcon
          rw [h1] at hcon
          exact Bool.noConfusion hcon.1
        rw [List.foldl_cons, hstep, ih]
        simp only [List.filterMap_cons, hkeep, List.countP_cons, hpred, if_false,
          Bool.false_eq_true, Nat.add_zero]
      · by_cases h2 : looks_like_total_row (grid.getD rr []) = true
        · have hstep : blockRowsStep grid columns (acc, cnt) rr = (acc, cnt + 1) := by
            rw [blockRowsStep]; dsimp only; rw [if_neg h1, if_pos h2]
          have hkeep : keepCleaned grid columns rr = Option.none := by
            rw [keepCleaned]; dsimp only; rw [if_neg h1, if_pos h2]
          have hpred : decide (is_row_empty (grid.getD rr []) = false ∧
              looks_like_total_row (grid.getD rr []) = true) = true := by
            apply decide_eq_true
            refine ⟨?_, h2⟩
            cases hbe : is_row_empty (grid.getD rr [])
            · rfl
            · exact absurd hbe h1
          rw [List.foldl_cons, hstep, ih]
          simp only [List.filterMap_cons, hkeep, List.countP_cons, hpred, if_true,
            Prod.mk.injEq]
          exact ⟨trivial, by omega⟩
        · have hpred : decide (is_row_empty (grid.getD rr []) = false ∧
              looks_like_total_row (grid.getD rr []) = true) = false := by
            apply decide_eq_false
            intro hcon
            exact absurd hcon.2 h2
          by_cases h3 : 0 < non_empty_count (cleanRow columns (grid.getD rr []))
          · have hstep : blockRowsStep grid columns (acc, cnt) rr =
                (acc ++ [cleanRow columns (grid.getD rr [])], cnt) := by
              rw [blockRowsStep]; dsimp only; rw [if_neg h1, if_neg h2, if_pos h3]
            have hkeep : keepCleaned grid columns rr =
                some (cleanRow columns (grid.getD rr [])) := by
              rw [keepCleaned]; dsimp only; rw [if_neg h1, if_neg h2, if_pos h3]
            rw [List.foldl_cons, hstep, ih]
            simp only [List.filterMap_cons, hkeep, List.countP_cons, hpred, if_false,
              Bool.false_eq_true, Nat.add_zero, Prod.mk.injEq]
            exact ⟨by simp, trivial⟩
          · have hstep : blockRowsStep grid columns (acc, cnt) rr = (acc, cnt) := by
              rw [blockRowsStep]; dsimp only; rw [if_neg h1, if_neg h2, if_neg h3]
            have hkeep : keepCleaned grid columns rr = Option.none := by
              rw [keepCleaned]; dsimp only; rw [if_neg h1, if_neg h2, if_neg h3]
            rw [List.foldl_cons, hstep, ih]
            simp only [List.filterMap_cons, hkeep, List.countP_cons, hpred, if_false,
              Bool.false_eq_true, Nat.add_zero]

theorem keepCleaned_some (grid : List (List Cell)) (columns : List String) (rr : Nat)
    (row : List Cell) (h : keepCleaned grid columns rr = some row) :
    row.length = columns.length ∧ 0 < non_empty_count row := by
  rw [keepCleaned] at h
  dsimp only at h
  by_cases h1 : is_row_empty (grid.getD rr []) = true
  · rw [if_pos h1] at h; cases h
  · rw [if_neg h1] at h
    by_cases h2 : looks_like_total_row (grid.getD rr []) = true
    · rw [if_pos h2] at h; cases h
    · rw [if_neg h2] at h
      by_cases h3 : 0 < non_empty_count (cleanRow columns (grid.getD rr []))
      · rw [if_pos h3] at h
        cases h
        exact ⟨cleanRow_length columns _, h3⟩
      · rw [if_neg h3] at h; cases h

theorem detectIter_block (grid : List (List Cell)) (cursor : Nat) (blk : Block)
    (h : (detectIter grid cursor).1 = some blk) :
    blk.rows = (blockRows grid blk.columns blk.data_start blk.data_end).1 ∧
      blk.removed_totals = (blockRows grid blk.columns blk.data_start blk.data_end).2 := by
  rw [detectIter] at h
  by_cases h1 : grid.length ≤ skipEmpty grid cursor
  · rw [if_pos h1] at h; cases h
  · rw [if_neg h1] at h
    cases hfnh : find_next_header grid (skipEmpty grid cursor) with
    | none => rw [hfnh] at h; cases h
    | some hd =>
        rw [hfnh] at h
        dsimp only at h
        split at h
        · cases h
          exact ⟨rfl, rfl⟩
        · cases h

theorem detectLoop_inv (grid : List (List Cell)) :
    ∀ (fuel cursor : Nat) (acc : List Block),
      (∀ x ∈ acc, x.rows = (blockRows grid x.columns x.data_start x.data_end).1 ∧
        x.removed_totals = (blockRows grid x.columns x.data_start x.data_end).2) →
      ∀ b ∈ detectLoop grid fuel cursor acc,
        b.rows = (blockRows grid b.columns b.data_start b.data_end).1 ∧
          b.removed_totals = (blockRows grid b.columns b.data_start b.data_end).2 := by
  intro fuel
  induction fuel with
  | zero =>
      intro cursor acc hacc b hb
      rw [detectLoop] at hb
      exact hacc b (List.mem_reverse.mp hb)
  | succ fuel ih =>
      intro cursor acc hacc b hb
      rw [detectLoop] at hb
      by_cases hc : grid.length ≤ cursor
      · rw [if_pos hc] at hb
        exact hacc b (List.mem_reverse.mp hb)
      · rw [if_neg hc] at hb
        dsimp only at hb
        refine ih (detectIter grid cursor).2 _ ?_ b hb
        intro x hx
        cases hb1 : (detectIter grid cursor).1 with
        | none =>
            rw [hb1] at hx
            exact hacc x hx
        | some blk =>
            rw [hb1] at hx
            rcases List.mem_cons.mp hx with hx | hx
            · cases hx
              exact detectIter_block grid cursor x hb1
            · exact hacc x hx

/-- C7: every block emitted by `detect_blocks` has rows that are exactly the
cleaned non-empty, non-total rows of its recorded data extent (so every row
has length equal to the column count and keeps at least one non-empty cell,
no fully-empty row and no total row of the extent appears), and
`removed_totals` counts exactly the non-empty total rows of the extent.
Scenario C: the data row `["Total", "", 450]` among sales rows is excluded and
counted in `removed_totals`. -/
theorem detect_blocks_block_invariants :
    (∀ (grid : List (List Cell)) (b : Block), b ∈ detect_blocks grid →
      b.rows = (List.range' b.data_start (b.data_end + 1 - b.data_start)).filterMap
          (keepCleaned grid b.columns) ∧
        b.removed_totals = (List.range' b.data_start (b.data_end + 1 - b.data_start)).countP
          (fun rr => decide (is_row_empty (grid.getD rr []) = false ∧
            looks_like_total_row (grid.getD rr []) = true)) ∧
        ∀ row ∈ b.rows, row.length = b.columns.length ∧ 0 < non_empty_count row) ∧
    detect_blocks gridTotals =
      [Block.mk 0 1 1 3 ["Produto", "Região", "Valor"]
        [[Cell.str "Caneta", Cell.str "Sul", Cell.float (fr 7 2)],
         [Cell.str "Lápis", Cell.str "Norte", Cell.float (fr 9 2)]] 1] := by
  constructor
  · intro grid b hb
    have hinv := detectLoop_inv grid (grid.length + 1) 0 []
      (by intro x hx; cases hx) b hb
    have hpair := blockRows_foldl grid b.columns
      (List.range' b.data_start (b.data_end + 1 - b.data_start)) [] 0
    have hrows : (blockRows grid b.columns b.data_start b.data_end).1 =
        (List.range' b.data_start (b.data_end + 1 - b.data_start)).filterMap
          (keepCleaned grid b.columns) := by
      rw [blockRows, hpair]
      simp
    have hcnt : (blockRows grid b.columns b.data_start b.data_end).2 =
        (List.range' b.data_start (b.data_end + 1 - b.data_start)).countP
          (fun rr => decide (is_row_empty (grid.getD rr []) = false ∧
            looks_like_total_row (grid.getD rr []) = true)) := by
      rw [blockRows, hpair]
      simp
    refine ⟨hinv.1.trans hrows, hinv.2.trans hcnt, ?_⟩
    intro row hrow
    rw [hinv.1, hrows] at hrow
    obtain ⟨rr, _, hkeep⟩ := List.mem_filterMap.mp hrow
    exact keepCleaned_some grid b.columns rr row hkeep
  · decide

/-- Witness for `detect_blocks_block_invariants` at the scenario-C grid. -/
theorem detect_blocks_block_invariants_witness :
    [[Cell.str "Caneta", Cell.str "Sul", Cell.float (fr 7 2)],
      [Cell.str "Lápis", Cell.str "Norte", Cell.float (fr 9 2)]] =
      (List.range' 1 3).filterMap (keepCleaned gridTotals ["Produto", "Região", "Valor"]) :=
  (detect_blocks_block_invariants.1 gridTotals
    (Block.mk 0 1 1 3 ["Produto", "Região", "Valor"]
      [[Cell.str "Caneta", Cell.str "Sul", Cell.float (fr 7 2)],
       [Cell.str "Lápis", Cell.str "Norte", Cell.float (fr 9 2)]] 1) (by decide)).1

/-! ## Claims C1 and C5 — the data-extent loop's exit conditions -/

theorem nonEmpty_filterMap_length (row : List Cell) :
    (row.filterMap (fun v => match normalize_cell v with
      | Cell.none => Option.none
      | n => some n)).length = non_empty_count row := by
  induction row with
  | nil => rfl
  | cons v t ih => cases hn : normalize_cell v <;> simp [hn, ih, non_empty_count,
      List.countP_cons]

theorem empty_not_title (row : List Cell) (h : is_row_empty row = true) :
    looks_like_section_title_row row = false := by
  have h0 : (row.filterMap (fun v => match normalize_cell v with
      | Cell.none => Option.none
      | n => some n)).length = 0 := by
    rw [nonEmpty_filterMap_length]
    exact of_decide_eq_true h
  rw [looks_like_section_title_row]
  dsimp only
  rw [if_pos h0]

/-- C1 (amended): during the data-extent scan, a blank run starting at row `r`
is tolerated (counted, and the scan resumes past it) iff the first non-empty
row after the run does not score `> 0.65` as a header, the run is at most 3
rows, and *fewer than 3* tolerances have already been granted to the block;
otherwise the block ends at `r - 1` and the cursor resumes at the first
non-empty row after the gap.  Scenario D: a blank run of 2 rows with more data
and no strong header below yields a single block. -/
theorem scanExtent_blank_tolerance :
    (∀ (grid : List (List Cell)) (ds fuel r de skips : Nat),
      r < grid.length → is_row_empty (grid.getD r []) = true →
      ((¬ (skipEmpty grid r < grid.length ∧
            Frac.lt (fr 65 100) (header_score (grid.getD (skipEmpty grid r) [])) = true) ∧
          skipEmpty grid r - r ≤ 3 ∧ skips < 3 →
        scanExtent grid ds (fuel + 1) r de skips =
          scanExtent grid ds fuel (skipEmpty grid r) de (skips + 1)) ∧
       ((skipEmpty grid r < grid.length ∧
            Frac.lt (fr 65 100) (header_score (grid.getD (skipEmpty grid r) [])) = true) ∨
          3 < skipEmpty grid r - r ∨ 3 ≤ skips →
        scanExtent grid ds (fuel + 1) r de skips = (r - 1, skipEmpty grid r)))) ∧
    detect_blocks gridBlankRun =
      [Block.mk 0 1 1 5 ["Nome", "Valor"]
        [[Cell.str "Ana", Cell.float (fr 7 2)], [Cell.str "Bia", Cell.float (fr 9 2)],
         [Cell.str "Caio", Cell.float (fr 11 2)]] 0] := by
  constructor
  · intro grid ds fuel r de skips hr hemp
    have htitle : ¬ (looks_like_section_title_row (grid.getD r []) = true ∧ ds + 1 < r) := by
      intro hcon
      rw [empty_not_title _ hemp] at hcon
      exact Bool.noConfusion hcon.1
    have hnlh : ((if skipEmpty grid r < grid.length then
        Frac.lt (fr 65 100) (header_score (grid.getD (skipEmpty grid r) [])) else false) = true) ↔
        (skipEmpty grid r < grid.length ∧
          Frac.lt (fr 65 100) (header_score (grid.getD (skipEmpty grid r) [])) = true) := by
      by_cases hk : skipEmpty grid r < grid.length
      · simp [hk]
      · simp [hk]
    rw [scanExtent, if_pos hr, if_neg htitle, if_pos hemp]
    dsimp only
    constructor
    · intro hcond
      rw [if_pos ⟨fun hx => hcond.1 (hnlh.mp hx), hcond.2.1, hcond.2.2⟩]
    · intro hcases
      rw [if_neg ?_]
      intro hcon
      rcases hcases with hc | hc | hc
      · exact hcon.1 (hnlh.mpr hc)
      · omega
      · omega
  · decide

/-- Witness for `scanExtent_blank_tolerance`: at row 3 of the scenario-D grid
the 2-row gap is bridged; at row 8 of the four-gap grid the fourth gap (with
3 tolerances already granted) ends the block. -/
theorem scanExtent_blank_tolerance_witness :
    scanExtent gridBlankRun 1 8 3 2 0 = scanExtent gridBlankRun 1 7 5 2 1 ∧
      scanExtent gridFourGaps 1 2 8 7 3 = (7, 9) :=
  ⟨(scanExtent_blank_tolerance.1 gridBlankRun 1 7 3 2 0 (by decide) (by decide)).1 (by decide),
   (scanExtent_blank_tolerance.1 gridFourGaps 1 1 8 7 3 (by decide) (by decide)).2
     (Or.inr (Or.inr (by decide)))⟩

/-- C1 counterexample: with four 1-row gaps (none followed by a header-like
row), the fourth gap arrives with 3 tolerances already granted — "no more than
3" — yet the block ends there: the `Edu` row after the fourth gap belongs to
no emitted block, instead of the single 5-row block the claim predicts. -/
theorem blank_run_fourth_gap_counterexample :
    detect_blocks gridFourGaps =
      [Block.mk 0 1 1 7 ["Nome", "Valor"]
        [[Cell.str "Ana", Cell.float (fr 7 2)], [Cell.str "Bia", Cell.float (fr 9 2)],
         [Cell.str "Caio", Cell.float (fr 11 2)], [Cell.str "Davi", Cell.float (fr 13 2)]] 0] ∧
      ¬ (∃ b ∈ detect_blocks gridFourGaps,
          [Cell.str "Edu", Cell.float (fr 15 2)] ∈ b.rows) := by
  decide

/-- C5 (amended): during the data-extent scan, a non-empty, non-title row
scoring `> 1.0` as a header ends the current block at the preceding row (the
cursor resuming at that row) iff it lies *more than 2 rows* past `data_start`
(`r > data_start + 2`, i.e. at least 3 rows into the extent); at
`r ≤ data_start + 2` it is consumed as a data row. -/
theorem scanExtent_strong_header :
    (∀ (grid : List (List Cell)) (ds fuel r de skips : Nat),
      r < grid.length →
      is_row_empty (grid.getD r []) = false →
      ¬ (looks_like_section_title_row (grid.getD r []) = true ∧ ds + 1 < r) →
      Frac.lt (fr 1 1) (header_score (grid.getD r [])) = true →
      ((ds + 2 < r → scanExtent grid ds (fuel + 1) r de skips = (r - 1, r)) ∧
       (r ≤ ds + 2 → scanExtent grid ds (fuel + 1) r de skips =
          scanExtent grid ds fuel (r + 1) r skips))) ∧
    detect_blocks gridLateHeader =
      [Block.mk 0 1 1 3 ["Nome", "Valor"]
        [[Cell.str "Ana", Cell.float (fr 7 2)], [Cell.str "Bia", Cell.float (fr 9 2)],
         [Cell.str "Caio", Cell.float (fr 11 2)]] 0] := by
  constructor
  · intro grid ds fuel r de skips hr hne hnt hstrong
    have hne' : ¬ is_row_empty (grid.getD r []) = true := by
      rw [hne]
      exact fun hx => Bool.noConfusion hx
    rw [scanExtent, if_pos hr, if_neg hnt, if_neg hne']
    constructor
    · intro hgt
      rw [if_pos ⟨hstrong, hgt⟩]
    · intro hle
      rw [if_neg ?_]
      intro hcon
      omega
  · decide

/-- Witness for `scanExtent_strong_header`: the strong header-like row ends
the block when it is 3 rows past `data_start`, and is consumed as data when it
is exactly 2 rows past. -/
theorem scanExtent_strong_header_witness :
    scanExtent gridLateHeader 1 2 4 3 0 = (3, 4) ∧
      scanExtent gridEarlyHeader 1 2 3 2 0 = scanExtent gridEarlyHeader 1 1 4 3 0 :=
  ⟨(scanExtent_strong_header.1 gridLateHeader 1 1 4 3 0 (by decide) (by decide) (by decide)
      (by decide)).1 (by decide),
   (scanExtent_strong_header.1 gridEarlyHeader 1 1 3 2 0 (by decide) (by decide) (by decide)
      (by decide)).2 (by decide)⟩

/-- C5 counterexample: on a grid where a row scoring `> 1.0` as a header
(`["Cargo", "Preço"]`, score 2.0) arrives after exactly 2 accumulated data
rows, the block does *not* end there — the row is kept as a data row of the
single emitted block. -/
theorem strong_header_after_two_rows_counterexample :
    detect_blocks gridEarlyHeader =
      [Block.mk 0 1 1 3 ["Nome", "Valor"]
        [[Cell.str "Ana", Cell.float (fr 7 2)], [Cell.str "Bia", Cell.float (fr 9 2)],
         [Cell.str "Cargo", Cell.str "Preço"]] 0] ∧
      Frac.lt (fr 1 1) (header_score [Cell.str "Cargo", Cell.str "Preço"]) = true := by
  decide

/-! ## Claim C3 — Brazilian numeric locale conversion -/

/-- C3: a column is converted iff the sample of the first (up to) 20 non-null
values is non-empty and at least 50% of it matches a numeric shape after
stripping currency symbols and spaces; when converting, every value is mapped
by `convert_value` (rightmost separator is the decimal point when both are
present, a lone comma is decimal, unparseable values become a missing-value
marker rather than an error); below the threshold the column is returned
untouched (`Option.none`).  Concretely `"1.234,56" ↦ 1234.56`,
`"1,234.56" ↦ 1234.56`, `"R$ 45,00" ↦ 45.0` (`fr 123456 100 = 1234.56`,
`fr 4500 100 = 45.0`). -/
theorem convert_brazilian_numbers_spec :
    (∀ series : List Cell,
      (convert_brazilian_numbers series).isSome ↔
        0 < brTotal series ∧ brTotal series ≤ 2 * brNumericCount series) ∧
    (∀ (series : List Cell) (out : List (Option Frac)),
      convert_brazilian_numbers series = some out → out = series.map convert_value) ∧
    convert_value (Cell.str "1.234,56") = some (fr 123456 100) ∧
    convert_value (Cell.str "1,234.56") = some (fr 123456 100) ∧
    convert_value (Cell.str "R$ 45,00") = some (fr 4500 100) ∧
    convert_value (Cell.str "abc") = Option.none ∧
    convert_brazilian_numbers
        [Cell.str "1.234,56", Cell.str "1,234.56", Cell.str "R$ 45,00", Cell.str "abc"] =
      some [some (fr 123456 100), some (fr 123456 100), some (fr 4500 100), Option.none] ∧
    convert_brazilian_numbers [Cell.str "abc", Cell.str "x", Cell.str "1,5"] = Option.none := by
  refine ⟨?_, ?_, by decide, by decide, by decide, by decide, by decide, by decide⟩
  · intro series
    by_cases hc : brTotal series = 0 ∨
        Frac.lt (ratio (brNumericCount series) (brTotal series)) (fr 5 10)
    · rw [convert_brazilian_numbers, if_pos hc]
      simp only [Option.isSome_none, Bool.false_eq_true, false_iff]
      simp only [Frac.lt, ratio, fr] at hc
      rcases hc with hc | hc
      · omega
      · simp only [decide_eq_true_eq] at hc
        intro hcon
        omega
    · rw [convert_brazilian_numbers, if_neg hc]
      simp only [Option.isSome_some, true_iff]
      push_neg at hc
      obtain ⟨h0, hlt⟩ := hc
      have hlt' : ¬ ((brNumericCount series : Int) * 10 < 5 * (brTotal series : Int)) := by
        intro hx
        apply hlt
        simp only [Frac.lt, ratio, fr]
        exact decide_eq_true hx
      constructor
      · omega
      · omega
  · intro series out h
    by_cases hc : brTotal series = 0 ∨
        Frac.lt (ratio (brNumericCount series) (brTotal series)) (fr 5 10)
    · rw [convert_brazilian_numbers, if_pos hc] at h
      exact absurd h (by simp)
    · rw [convert_brazilian_numbers, if_neg hc] at h
      exact (Option.some_inj.mp h).symm

/-- Witness for `convert_brazilian_numbers_spec` at a concrete converting
column. -/
theorem convert_brazilian_numbers_spec_witness :
    [some (fr 123456 100), some (fr 4500 100), Option.none] =
      List.map convert_value [Cell.str "1.234,56", Cell.str "R$ 45,00", Cell.str "abc"] :=
  convert_brazilian_numbers_spec.2.1
    [Cell.str "1.234,56", Cell.str "R$ 45,00", Cell.str "abc"]
    [some (fr 123456 100), some (fr 4500 100), Option.none] (by decide)

/-! ## Claim C9 — the Pre-Cleaner's column drop -/

/-- C9 counterexample: `remove_empty_columns` keeps a column whose only cell is
the empty string (which normalizes to empty, so its non-empty ratio is 0%),
because pandas `notna` counts it as non-null; and when *no* column passes the
2% threshold the function keeps all columns instead of dropping them. -/
theorem remove_empty_columns_counterexample :
    remove_empty_columns [[Cell.none], [Cell.str ""]] = [[Cell.str ""]] ∧
      normalize_cell (Cell.str "") = Cell.none ∧
      remove_empty_columns [[Cell.none], [Cell.none]] = [[Cell.none], [Cell.none]] := by
  decide

theorem frac_gt_two_percent (k n : Nat) :
    Frac.lt (fr 2 100) (ratio k n) = decide (n < 50 * k) := by
  simp only [Frac.lt, ratio, fr, decide_eq_decide]
  omega

/-- C9 (amended): on a non-empty frame, if at least one column's *non-null*
count exceeds 2% of the row count, exactly the columns above the threshold
survive, in their original order; if no column passes, or the frame has no
rows or no columns, all columns are kept. -/
theorem remove_empty_columns_spec :
    (∀ (c0 : List Cell) (rest : List (List Cell)), 0 < c0.length →
      (∃ c ∈ c0 :: rest, c0.length < 50 * notnaCount c) →
      remove_empty_columns (c0 :: rest) =
        (c0 :: rest).filter (fun c => decide (c0.length < 50 * notnaCount c))) ∧
    (∀ (c0 : List Cell) (rest : List (List Cell)), 0 < c0.length →
      (∀ c ∈ c0 :: rest, 50 * notnaCount c ≤ c0.length) →
      remove_empty_columns (c0 :: rest) = c0 :: rest) ∧
    (∀ (c0 : List Cell) (rest : List (List Cell)), c0.length = 0 →
      remove_empty_columns (c0 :: rest) = c0 :: rest) ∧
    remove_empty_columns [] = [] := by
  have hfilter : ∀ (c0 : List Cell) (rest : List (List Cell)),
      (c0 :: rest).filter (fun c => Frac.lt (fr 2 100) (ratio (notnaCount c) c0.length)) =
        (c0 :: rest).filter (fun c => decide (c0.length < 50 * notnaCount c)) := by
    intro c0 rest
    apply List.filter_congr
    intro c _
    exact frac_gt_two_percent (notnaCount c) c0.length
  refine ⟨?_, ?_, ?_, rfl⟩
  · intro c0 rest h0 hex
    rw [remove_empty_columns]
    rw [if_neg (by omega), hfilter]
    rw [if_neg ?_]
    obtain ⟨c, hc, hpass⟩ := hex
    intro hnil
    have : c ∈ (c0 :: rest).filter (fun c => decide (c0.length < 50 * notnaCount c)) :=
      List.mem_filter.mpr ⟨hc, by simpa using hpass⟩
    rw [hnil] at this
    exact absurd this (List.not_mem_nil c)
  · intro c0 rest h0 hall
    rw [remove_empty_columns]
    rw [if_neg (by omega), hfilter]
    rw [if_pos ?_]
    rw [List.filter_eq_nil_iff]
    intro c hc
    simp only [decide_eq_true_eq, not_lt]
    exact hall c hc
  · intro c0 rest h0
    rw [remove_empty_columns]
    rw [if_pos h0]

/-- Witness for `remove_empty_columns_spec` at a concrete frame. -/
theorem remove_empty_columns_spec_witness :
    remove_empty_columns [[Cell.str "x"], [Cell.none]] =
      ([[Cell.str "x"], [Cell.none]] :
        List (List Cell)).filter (fun c => decide ([Cell.str "x"].length < 50 * notnaCount c)) :=
  remove_empty_columns_spec.1 [Cell.str "x"] [[Cell.none]] (by decide)
    ⟨[Cell.str "x"], by decide, by decide⟩

/-! ## Claim C6 — merged-cell propagation and header concatenation -/

theorem propagateGo_getD (row : List Cell) : ∀ (last : Option Cell) (i : Nat), i < row.length →
    (propagateGo last row).getD i Cell.none =
      match (row.take (i + 1)).reverse.find? (fun v => decide (normalize_cell v ≠ Cell.none)) with
      | some w => w
      | Option.none =>
          match last with
          | some lv => lv
          | Option.none => row.getD i Cell.none := by
  induction row with
  | nil => intro last i h; exact absurd h (by simp)
  | cons v t ih =>
      intro last i h
      by_cases hv : normalize_cell v ≠ Cell.none
      · have hstep : propagateGo last (v :: t) = v :: propagateGo (some v) t := by
          simp [propagateGo, hv]
        cases i with
        | zero => simp [hstep, List.find?_cons, hv]
        | succ i =>
            have hlt : i < t.length := by simpa using h
            rw [hstep, List.getD_cons_succ, ih (some v) i hlt]
            rw [List.take_succ_cons, List.reverse_cons, List.find?_append]
            cases hf : (t.take (i + 1)).reverse.find?
                (fun v => decide (normalize_cell v ≠ Cell.none)) with
            | some w => simp [hf, Option.or]
            | none => simp [hf, Option.or, List.find?_cons, hv]
      · have hv0 : normalize_cell v = Cell.none := not_not.mp hv
        cases last with
        | some lv =>
            have hstep : propagateGo (some lv) (v :: t) = lv :: propagateGo (some lv) t := by
              simp [propagateGo, hv0]
            cases i with
            | zero => simp [hstep, List.find?_cons, hv0]
            | succ i =>
                have hlt : i < t.length := by simpa using h
                rw [hstep, List.getD_cons_succ, ih (some lv) i hlt]
                rw [List.take_succ_cons, List.reverse_cons, List.find?_append]
                cases hf : (t.take (i + 1)).reverse.find?
                    (fun v => decide (normalize_cell v ≠ Cell.none)) with
                | some w => simp [hf, Option.or]
                | none => simp [hf, Option.or, List.find?_cons, hv0]
        | none =>
            have hstep : propagateGo Option.none (v :: t) = v :: propagateGo Option.none t := by
              simp [propagateGo, hv0]
            cases i with
            | zero => simp [hstep, List.find?_cons, hv0]
            | succ i =>
                have hlt : i < t.length := by simpa using h
                rw [hstep, List.getD_cons_succ, ih Option.none i hlt]
                rw [List.take_succ_cons, List.reverse_cons, List.find?_append]
                cases hf : (t.take (i + 1)).reverse.find?
                    (fun v => decide (normalize_cell v ≠ Cell.none)) with
                | some w => simp [hf, Option.or]
                | none => simp [hf, Option.or, List.find?_cons, hv0, List.getD_cons_succ]

/-- C6: merged-cell propagation fills each position with the nearest preceding
non-empty value (the original value where no non-empty cell precedes), and on
the two-row header `["Vendas", None, None]` / `["Qtd", "Preço", "Total"]`,
`build_header` yields `["Vendas Qtd", "Vendas Preço", "Vendas Total"]`. -/
theorem build_header_merged_propagation :
    (∀ (row : List Cell) (i : Nat), i < row.length →
      (_propagate_merged_header row).getD i Cell.none =
        match (row.take (i + 1)).reverse.find? (fun v => decide (normalize_cell v ≠ Cell.none)) with
        | some w => w
        | Option.none => row.getD i Cell.none) ∧
    build_header
        [[Cell.str "Vendas", Cell.none, Cell.none],
          [Cell.str "Qtd", Cell.str "Preço", Cell.str "Total"]] 0 2 =
      ["Vendas Qtd", "Vendas Preço", "Vendas Total"] := by
  constructor
  · intro row i h
    exact propagateGo_getD row Option.none i h
  · decide

/-- Witness for `build_header_merged_propagation` at a concrete merged row. -/
theorem build_header_merged_propagation_witness :
    (_propagate_merged_header [Cell.str "Vendas", Cell.none, Cell.none]).getD 2 Cell.none =
      Cell.str "Vendas" := by
  have h := build_header_merged_propagation.1 [Cell.str "Vendas", Cell.none, Cell.none] 2
    (by decide)
  rw [h]
  decide

/-! ## Claim C2 — column-name uniqueness in `build_header` -/

/-- C2: the uniqueness pass of `build_header` can emit duplicate column names:
on the single header row `["a", "a", "a_2"]` the `_2` suffix given to the
second `"a"` collides with the literal third column name, yielding
`["a", "a_2", "a_2"]` — contradicting the code's own `Garante nomes únicos`
comment and the spec's uniqueness invariant. -/
theorem build_header_duplicate_columns :
    build_header [[Cell.str "a", Cell.str "a", Cell.str "a_2"]] 0 1 = ["a", "a_2", "a_2"] ∧
      ¬ (build_header [[Cell.str "a", Cell.str "a", Cell.str "a_2"]] 0 1).Nodup := by
  constructor
  · decide
  · decide

end DataClarity
